import Mathlib

/-!
Shallow embedding of the PatientConsentToken Soroban contract
(src/contracts/medical_consent_nft/src/lib.rs) and proofs of its
specified properties.

Modelling conventions:

* `Address` is abstracted as `Nat`.
* The contract's instance storage is a record of optional values;
  `none` models an absent key.
* `env.ledger().timestamp()` becomes a parameter `now`.
* `require_auth` becomes a parameter `auth : Address → Bool`; a failing
  `require_auth`, like a failing `expect`/`unwrap`, traps the host, which
  rolls back the whole invocation.  Both are modelled by the result
  `none` (no post-state: the environment discards every write of a
  trapped call).
* A structured `Err` return also leaves storage unchanged in Soroban; in
  the source every `Err` is returned before the first write, so the
  embedding returns the unmodified input state alongside the error.
* `u64`/`u32` quantities are modelled as `Nat`: the token counter and
  the metadata version only ever grow by 1 per call, so the wrap-around
  of machine arithmetic is unreachable on any trace considered here and
  `% 2 ^ 64` is omitted.
* The bootstrap entry point `initialize` is named `initRegistry` here.
-/

/-- Soroban `Address`, abstracted as a natural number. -/
abbrev Address := Nat

/-- Structured contract errors (`ContractError` in lib.rs). -/
inductive ContractError where
  | NotAuthorized
  | TokenNotFound
  | ConsentRevoked
  | AlreadyInitialized
  | NotTokenOwner
deriving DecidableEq, Repr

/-- Consent metadata (`ConsentMetadata` in lib.rs). -/
structure ConsentMetadata where
  metadata_uri : String
  consent_type : String
  issued_timestamp : Nat
  expiry_timestamp : Nat
  issuer : Address
  version : Nat
deriving DecidableEq, Repr

/-- Audit-trail entry (`ConsentHistoryEntry` in lib.rs). -/
structure ConsentHistoryEntry where
  action : String
  timestamp : Nat
  actor : Address
  metadata_uri : String
deriving DecidableEq, Repr

/-- The contract's instance storage, one field per `DataKey` variant. -/
structure ConsentState where
  admin : Option Address
  issuers : Option (List Address)
  tokenCounter : Option Nat
  tokenOwner : Nat → Option Address
  tokenMetadata : Nat → Option ConsentMetadata
  tokenRevoked : Nat → Option Bool
  ownerTokens : Address → Option (List Nat)
  consentHistory : Nat → Option (List ConsentHistoryEntry)

/-- `env.storage().instance().set` on a keyed map. -/
def upd {α : Type} (f : Nat → α) (k : Nat) (v : α) : Nat → α :=
  fun x => if x = k then v else f x

/-- `initialize(env, admin)`: set the admin, a zero counter and an empty
issuer list; fails `AlreadyInitialized` if an admin is already stored. -/
def initRegistry (auth : Address → Bool) (admin : Address) (s : ConsentState) :
    Option (Except ContractError Unit × ConsentState) :=
  if s.admin.isSome then some (Except.error ContractError.AlreadyInitialized, s)
  else if auth admin then
    some (Except.ok (),
      { s with admin := some admin, tokenCounter := some 0, issuers := some [] })
  else none

/-- `add_issuer(env, issuer)`: admin-authenticated unconditional append to
the issuer list (traps if the registry is uninitialized). -/
def add_issuer (auth : Address → Bool) (issuer : Address) (s : ConsentState) :
    Option ConsentState :=
  match s.admin with
  | none => none
  | some admin =>
    if auth admin then
      some { s with issuers := some (s.issuers.getD [] ++ [issuer]) }
    else none

/-- `remove_issuer(env, issuer)`: admin-authenticated rebuild of the issuer
list excluding every occurrence of `issuer` (traps if the registry is
uninitialized or the issuer list is absent). -/
def remove_issuer (auth : Address → Bool) (issuer : Address) (s : ConsentState) :
    Option ConsentState :=
  match s.admin with
  | none => none
  | some admin =>
    if auth admin then
      match s.issuers with
      | none => none
      | some issuers =>
        some { s with issuers := some (issuers.filter (fun a => a != issuer)) }
    else none

/-- `is_issuer(env, address)`: linear scan of the issuer list. -/
def is_issuer (s : ConsentState) (address : Address) : Bool :=
  (s.issuers.getD []).any (fun a => a == address)

/-- `mint_consent(env, to, metadata_uri, consent_type, expiry_timestamp)`. -/
def mint_consent (auth : Address → Bool) (now : Nat) (toAddr : Address)
    (metadata_uri consent_type : String) (expiry_timestamp : Nat)
    (s : ConsentState) : Option (Except ContractError Nat × ConsentState) :=
  let caller := toAddr
  if ! is_issuer s caller then some (Except.error ContractError.NotAuthorized, s)
  else if auth toAddr then
    let token_id := s.tokenCounter.getD 0
    let metadata : ConsentMetadata :=
      { metadata_uri := metadata_uri, consent_type := consent_type,
        issued_timestamp := now, expiry_timestamp := expiry_timestamp,
        issuer := caller, version := 1 }
    let owner_tokens := (s.ownerTokens toAddr).getD [] ++ [token_id]
    let history : List ConsentHistoryEntry :=
      [{ action := "issued", timestamp := now, actor := caller,
         metadata_uri := metadata_uri }]
    some (Except.ok token_id,
      { s with
        tokenCounter := some (token_id + 1),
        tokenOwner := upd s.tokenOwner token_id (some toAddr),
        tokenMetadata := upd s.tokenMetadata token_id (some metadata),
        tokenRevoked := upd s.tokenRevoked token_id (some false),
        ownerTokens := upd s.ownerTokens toAddr (some owner_tokens),
        consentHistory := upd s.consentHistory token_id (some history) })
  else none

/-- `update_consent(env, token_id, new_metadata_uri)`. -/
def update_consent (auth : Address → Bool) (now : Nat) (token_id : Nat)
    (new_metadata_uri : String) (s : ConsentState) :
    Option (Except ContractError Unit × ConsentState) :=
  match s.tokenOwner token_id with
  | none => none
  | some owner =>
    if (s.tokenRevoked token_id).getD false then
      some (Except.error ContractError.ConsentRevoked, s)
    else if auth owner then
      match s.tokenMetadata token_id with
      | none => none
      | some metadata =>
        let metadata1 : ConsentMetadata :=
          { metadata with metadata_uri := new_metadata_uri,
                          version := metadata.version + 1 }
        let entry : ConsentHistoryEntry :=
          { action := "updated", timestamp := now, actor := owner,
            metadata_uri := new_metadata_uri }
        let history := (s.consentHistory token_id).getD [] ++ [entry]
        some (Except.ok (),
          { s with
            tokenMetadata := upd s.tokenMetadata token_id (some metadata1),
            consentHistory := upd s.consentHistory token_id (some history) })
    else none

/-- `revoke_consent(env, token_id)`.  The source sets the revoked flag and
then reads the metadata with `expect`; a failing `expect` traps and rolls
back the already-performed write, so the absent-metadata case is `none`. -/
def revoke_consent (auth : Address → Bool) (now : Nat) (token_id : Nat)
    (s : ConsentState) : Option ConsentState :=
  match s.tokenOwner token_id with
  | none => none
  | some owner =>
    if auth owner then
      match s.tokenMetadata token_id with
      | none => none
      | some metadata =>
        let entry : ConsentHistoryEntry :=
          { action := "revoked", timestamp := now, actor := owner,
            metadata_uri := metadata.metadata_uri }
        let history := (s.consentHistory token_id).getD [] ++ [entry]
        some { s with
          tokenRevoked := upd s.tokenRevoked token_id (some true),
          consentHistory := upd s.consentHistory token_id (some history) }
    else none

/-- `transfer(env, from, to, token_id)`.  The destination token list is
read after the source list has been written, as in the source (this
matters when `frm = toAddr`). -/
def transfer (auth : Address → Bool) (frm toAddr : Address) (token_id : Nat)
    (s : ConsentState) : Option (Except ContractError Unit × ConsentState) :=
  if auth frm then
    match s.tokenOwner token_id with
    | none => none
    | some owner =>
      if owner != frm then some (Except.error ContractError.NotTokenOwner, s)
      else if (s.tokenRevoked token_id).getD false then
        some (Except.error ContractError.ConsentRevoked, s)
      else
        let ownerMap := upd s.tokenOwner token_id (some toAddr)
        let from_tokens := (s.ownerTokens frm).getD []
        let new_from_tokens := from_tokens.filter (fun tid => tid != token_id)
        let ot1 := upd s.ownerTokens frm (some new_from_tokens)
        let to_tokens := (ot1 toAddr).getD []
        let ot2 := upd ot1 toAddr (some (to_tokens ++ [token_id]))
        some (Except.ok (), { s with tokenOwner := ownerMap, ownerTokens := ot2 })
  else none

/-- `owner_of(env, token_id)` (`none` models the `expect` trap). -/
def owner_of (s : ConsentState) (token_id : Nat) : Option Address :=
  s.tokenOwner token_id

/-- `get_metadata(env, token_id)` (`none` models the `expect` trap). -/
def get_metadata (s : ConsentState) (token_id : Nat) : Option ConsentMetadata :=
  s.tokenMetadata token_id

/-- `is_revoked(env, token_id)`: defaults to `false` when absent. -/
def is_revoked (s : ConsentState) (token_id : Nat) : Bool :=
  (s.tokenRevoked token_id).getD false

/-- `get_history(env, token_id)`: defaults to the empty list when absent. -/
def get_history (s : ConsentState) (token_id : Nat) : List ConsentHistoryEntry :=
  (s.consentHistory token_id).getD []

/-- `tokens_of_owner(env, owner)`: defaults to the empty list when absent. -/
def tokens_of_owner (s : ConsentState) (owner : Address) : List Nat :=
  (s.ownerTokens owner).getD []

/-- `is_valid(env, token_id)`: `false` when revoked (without touching the
metadata), a trap (`none`) when not revoked but the metadata is absent,
`true` for expiry 0, otherwise `now < expiry`. -/
def is_valid (now : Nat) (s : ConsentState) (token_id : Nat) : Option Bool :=
  if (s.tokenRevoked token_id).getD false then some false
  else
    match s.tokenMetadata token_id with
    | none => none
    | some metadata =>
      if metadata.expiry_timestamp = 0 then some true
      else some (decide (now < metadata.expiry_timestamp))

/-- One invocation of the public surface, with its arguments. -/
inductive Op where
  | init (admin : Address)
  | addIssuer (issuer : Address)
  | removeIssuer (issuer : Address)
  | mint (toAddr : Address) (metadata_uri consent_type : String)
      (expiry_timestamp : Nat)
  | update (token_id : Nat) (new_metadata_uri : String)
  | revoke (token_id : Nat)
  | transfer (frm toAddr : Address) (token_id : Nat)

/-- A call: its authentication environment, its ledger time, its operation. -/
structure Call where
  auth : Address → Bool
  now : Nat
  op : Op

/-- Uniform outcome of one call: a structured error, or success with the
minted id when the call was a mint. -/
inductive CallResult where
  | ok (minted : Option Nat)
  | err (e : ContractError)

/-- Dispatch one operation against the state.  `none` is a trapped call. -/
def execOp (auth : Address → Bool) (now : Nat) (op : Op) (s : ConsentState) :
    Option (CallResult × ConsentState) :=
  match op with
  | Op.init admin =>
    match initRegistry auth admin s with
    | none => none
    | some (Except.ok _, s1) => some (CallResult.ok none, s1)
    | some (Except.error e, s1) => some (CallResult.err e, s1)
  | Op.addIssuer x =>
    match add_issuer auth x s with
    | none => none
    | some s1 => some (CallResult.ok none, s1)
  | Op.removeIssuer x =>
    match remove_issuer auth x s with
    | none => none
    | some s1 => some (CallResult.ok none, s1)
  | Op.mint toAddr uri ct exp =>
    match mint_consent auth now toAddr uri ct exp s with
    | none => none
    | some (Except.ok id, s1) => some (CallResult.ok (some id), s1)
    | some (Except.error e, s1) => some (CallResult.err e, s1)
  | Op.update token_id uri =>
    match update_consent auth now token_id uri s with
    | none => none
    | some (Except.ok _, s1) => some (CallResult.ok none, s1)
    | some (Except.error e, s1) => some (CallResult.err e, s1)
  | Op.revoke token_id =>
    match revoke_consent auth now token_id s with
    | none => none
    | some s1 => some (CallResult.ok none, s1)
  | Op.transfer frm toAddr token_id =>
    match transfer auth frm toAddr token_id s with
    | none => none
    | some (Except.ok _, s1) => some (CallResult.ok none, s1)
    | some (Except.error e, s1) => some (CallResult.err e, s1)

/-- Execute a call against the registry: a trapped call leaves the state
as it was (host rollback); otherwise the returned state is kept.  The
second component is the id returned by a successful mint. -/
def stepOp (c : Call) (s : ConsentState) : ConsentState × Option Nat :=
  match execOp c.auth c.now c.op s with
  | none => (s, none)
  | some (CallResult.ok r, s1) => (s1, r)
  | some (CallResult.err _, s1) => (s1, none)

/-- Ids returned by the successful mints of a call sequence, in order. -/
def mintedIds : List Call → ConsentState → List Nat
  | [], _ => []
  | c :: rest, s => (stepOp c s).2.toList ++ mintedIds rest (stepOp c s).1

/-- Iterate `update_consent` with a fixed URI; `none` as soon as one call
does not return `Ok`. -/
def updateN (auth : Address → Bool) (now : Nat) (token_id : Nat)
    (uri : String) : Nat → ConsentState → Option ConsentState
  | 0, s => some s
  | Nat.succ k, s =>
    match update_consent auth now token_id uri s with
    | some (Except.ok _, s1) => updateN auth now token_id uri k s1
    | _ => none

/-- Iterate `revoke_consent`; `none` as soon as one call traps. -/
def revokeN (auth : Address → Bool) (now : Nat) (token_id : Nat) :
    Nat → ConsentState → Option ConsentState
  | 0, s => some s
  | Nat.succ k, s =>
    match revoke_consent auth now token_id s with
    | some s1 => revokeN auth now token_id k s1
    | none => none

/-- Iterate `add_issuer` on a fixed identity. -/
def addIssuerN (auth : Address → Bool) (issuer : Address) :
    Nat → ConsentState → Option ConsentState
  | 0, s => some s
  | Nat.succ k, s =>
    match add_issuer auth issuer s with
    | some s1 => addIssuerN auth issuer k s1
    | none => none

/-- Authentication environment in which every identity is authenticated. -/
def authAll : Address → Bool := fun _ => true

/-- Authentication environment in which no identity is authenticated. -/
def authNone : Address → Bool := fun _ => false

/-- Completely empty storage. -/
def emptyState : ConsentState :=
  { admin := none, issuers := none, tokenCounter := none,
    tokenOwner := fun _ => none, tokenMetadata := fun _ => none,
    tokenRevoked := fun _ => none, ownerTokens := fun _ => none,
    consentHistory := fun _ => none }

/-- A freshly initialized registry (admin 0) whose issuer list holds 5. -/
def initState : ConsentState :=
  { emptyState with
      admin := some 0, tokenCounter := some 0, issuers := some [5] }

example : (mint_consent authAll 3 5 "u" "t" 0 initState).map Prod.fst =
    some (Except.ok 0) := by rfl

example : (mint_consent authAll 3 7 "u" "t" 0 initState).map Prod.fst =
    some (Except.error ContractError.NotAuthorized) := by rfl

example :
    mintedIds
      [⟨authAll, 1, Op.mint 5 "u" "t" 0⟩, ⟨authAll, 2, Op.mint 5 "v" "t" 0⟩]
      initState = [0, 1] := by rfl

theorem upd_self {α : Type} (f : Nat → α) (k : Nat) (v : α) : upd f k v k = v := by
  simp [upd]

theorem upd_ne {α : Type} (f : Nat → α) (k : Nat) (v : α) (x : Nat)
    (h : x ≠ k) : upd f k v x = f x := by
  simp [upd, h]

/-- One step of any call, on an initialized registry: the admin is kept,
and either the call was not a successful mint and the counter is kept, or
it was a successful mint, returned the current counter value, and the
counter advanced by exactly one. -/
theorem stepOp_admin_counter (c : Call) (s : ConsentState) (a : Address)
    (n : Nat) (ha : s.admin = some a) (hc : s.tokenCounter = some n) :
    (stepOp c s).1.admin = some a ∧
      (((stepOp c s).2 = none ∧ (stepOp c s).1.tokenCounter = some n) ∨
        ((stepOp c s).2 = some n ∧
          (stepOp c s).1.tokenCounter = some (n + 1))) := by
  obtain ⟨auth, now, op⟩ := c
  cases op with
  | init admin =>
    simp [stepOp, execOp, initRegistry, ha, hc]
  | addIssuer x =>
    cases hA : auth a <;>
      simp [stepOp, execOp, add_issuer, ha, hc, hA]
  | removeIssuer x =>
    cases hA : auth a <;> rcases hI : s.issuers with _ | l <;>
      simp [stepOp, execOp, remove_issuer, ha, hc, hA, hI]
  | mint toAddr uri ct exp =>
    cases hII : is_issuer s toAddr <;> cases hA : auth toAddr <;>
      simp [stepOp, execOp, mint_consent, ha, hc, hII, hA]
  | update tid uri =>
    rcases hO : s.tokenOwner tid with _ | o
    · simp [stepOp, execOp, update_consent, hO, ha, hc]
    · cases hR : (s.tokenRevoked tid).getD false <;>
        cases hA : auth o <;>
        rcases hM : s.tokenMetadata tid with _ | m <;>
          simp [stepOp, execOp, update_consent, hO, hR, hA, hM, ha, hc]
  | revoke tid =>
    rcases hO : s.tokenOwner tid with _ | o
    · simp [stepOp, execOp, revoke_consent, hO, ha, hc]
    · cases hA : auth o <;>
        rcases hM : s.tokenMetadata tid with _ | m <;>
          simp [stepOp, execOp, revoke_consent, hO, hA, hM, ha, hc]
  | transfer frm toAddr tid =>
    cases hA : auth frm
    · simp [stepOp, execOp, transfer, hA, ha, hc]
    · rcases hO : s.tokenOwner tid with _ | o
      · simp [stepOp, execOp, transfer, hA, hO, ha, hc]
      · by_cases hE : o = frm <;>
          cases hR : (s.tokenRevoked tid).getD false <;>
            simp [stepOp, execOp, transfer, hA, hO, hE, hR, ha, hc]

/-- Across a call sequence on an initialized registry, the successful mint
ids are consecutive from the starting counter value. -/
theorem mintedIds_eq_range (calls : List Call) :
    ∀ (s : ConsentState) (a : Address) (n : Nat), s.admin = some a →
      s.tokenCounter = some n →
      mintedIds calls s = List.range' n (mintedIds calls s).length := by
  induction calls with
  | nil => intro s a n _ _; simp [mintedIds]
  | cons c rest ih =>
    intro s a n ha hc
    obtain ⟨hadm, hcase⟩ := stepOp_admin_counter c s a n ha hc
    rcases hcase with ⟨h1, h2⟩ | ⟨h1, h2⟩
    · simp only [mintedIds, h1, Option.toList_none, List.nil_append]
      exact ih _ a n hadm h2
    · have hrest := ih _ a (n + 1) hadm h2
      simp only [mintedIds, h1, Option.toList_some, List.singleton_append]
      rw [hrest]
      simp [List.range'_succ]

/-- No operation ever deletes a token-owner entry. -/
theorem stepOp_owner_isSome (c : Call) (s : ConsentState) (id : Nat)
    (h : (s.tokenOwner id).isSome = true) :
    ((stepOp c s).1.tokenOwner id).isSome = true := by
  obtain ⟨auth, now, op⟩ := c
  cases op with
  | init admin =>
    rcases hA : s.admin with _ | a <;> cases hAu : auth admin <;>
      simp [stepOp, execOp, initRegistry, hA, hAu, h]
  | addIssuer x =>
    rcases hA : s.admin with _ | a
    · simp [stepOp, execOp, add_issuer, hA, h]
    · cases hAu : auth a <;> simp [stepOp, execOp, add_issuer, hA, hAu, h]
  | removeIssuer x =>
    rcases hA : s.admin with _ | a
    · simp [stepOp, execOp, remove_issuer, hA, h]
    · cases hAu : auth a <;> rcases hI : s.issuers with _ | l <;>
        simp [stepOp, execOp, remove_issuer, hA, hAu, hI, h]
  | mint toAddr uri ct exp =>
    cases hII : is_issuer s toAddr <;> cases hAu : auth toAddr <;>
      simp [stepOp, execOp, mint_consent, hII, hAu, h, upd] <;> split <;>
        simp [h]
  | update tid uri =>
    rcases hO : s.tokenOwner tid with _ | o
    · simp [stepOp, execOp, update_consent, hO, h]
    · cases hR : (s.tokenRevoked tid).getD false <;>
        cases hAu : auth o <;>
        rcases hM : s.tokenMetadata tid with _ | m <;>
          simp [stepOp, execOp, update_consent, hO, hR, hAu, hM, h]
  | revoke tid =>
    rcases hO : s.tokenOwner tid with _ | o
    · simp [stepOp, execOp, revoke_consent, hO, h]
    · cases hAu : auth o <;>
        rcases hM : s.tokenMetadata tid with _ | m <;>
          simp [stepOp, execOp, revoke_consent, hO, hAu, hM, h]
  | transfer frm toAddr tid =>
    cases hAu : auth frm
    · simp [stepOp, execOp, transfer, hAu, h]
    · rcases hO : s.tokenOwner tid with _ | o
      · simp [stepOp, execOp, transfer, hAu, hO, h]
      · by_cases hE : o = frm <;>
          cases hR : (s.tokenRevoked tid).getD false <;>
            simp [stepOp, execOp, transfer, hAu, hO, hE, hR, h, upd] <;>
              split <;> simp [h]

/-- C1: starting from an initialized registry (admin present, counter at
some value `n`, which `initRegistry` sets to 0), the ids returned by the
successful mints of any call sequence are exactly `n, n+1, n+2, …` in
issuance order — each successful mint returns the current counter and
advances it by exactly 1 — and no owner entry (hence no record) is ever
deleted by any operation. -/
theorem mint_ids_are_sequential :
    (∀ (auth : Address → Bool) (admin : Address) (s s1 : ConsentState),
        initRegistry auth admin s = some (Except.ok (), s1) →
        s1.tokenCounter = some 0) ∧
    (∀ (calls : List Call) (s : ConsentState) (a : Address) (n : Nat),
        s.admin = some a → s.tokenCounter = some n →
        mintedIds calls s = List.range' n (mintedIds calls s).length) ∧
    (∀ (c : Call) (s : ConsentState) (id : Nat),
        (s.tokenOwner id).isSome = true →
        ((stepOp c s).1.tokenOwner id).isSome = true) := by
  refine ⟨?_, mintedIds_eq_range, stepOp_owner_isSome⟩
  intro auth admin s s1 h
  by_cases hA : s.admin.isSome
  · simp [initRegistry, hA] at h
  · cases hAu : auth admin <;> simp [initRegistry, hA, hAu] at h
    rw [← h]

/-- A demonstration trace: two successful mints with a revocation between
them, starting from a fresh registry. -/
def c1calls : List Call :=
  [⟨authAll, 1, Op.mint 5 "u" "t" 0⟩, ⟨authAll, 2, Op.revoke 0⟩,
   ⟨authAll, 3, Op.mint 5 "v" "t" 0⟩]

theorem mint_ids_are_sequential_witness :
    mintedIds c1calls initState =
      List.range' 0 (mintedIds c1calls initState).length :=
  mint_ids_are_sequential.2.1 c1calls initState 0 0 rfl rfl

/-- C2: immediately after a successful `mint_consent(owner, uri, type,
exp)` returning `id`, the owner of `id` is `owner`, the metadata has
version 1 and issuer `owner` (with the supplied uri, type and expiry and
the current time as issue time), the record is not revoked, and the
history is exactly one "issued" entry. -/
theorem mint_postconditions (auth : Address → Bool) (now : Nat)
    (toAddr : Address) (uri ct : String) (exp : Nat) (s : ConsentState)
    (id : Nat) (s1 : ConsentState)
    (h : mint_consent auth now toAddr uri ct exp s =
        some (Except.ok id, s1)) :
    owner_of s1 id = some toAddr ∧
    get_metadata s1 id = some ⟨uri, ct, now, exp, toAddr, 1⟩ ∧
    is_revoked s1 id = false ∧
    get_history s1 id = [⟨"issued", now, toAddr, uri⟩] := by
  cases hII : is_issuer s toAddr <;> cases hAu : auth toAddr <;>
    simp [mint_consent, hII, hAu] at h
  obtain ⟨h1, h2⟩ := h
  rw [← h2]
  simp [owner_of, get_metadata, is_revoked, get_history, ← h1, upd]

/-- The registry state after one successful demonstration mint. -/
def mintDemoState : ConsentState :=
  ((mint_consent authAll 3 5 "u" "t" 0 initState).getD
    (Except.ok 0, emptyState)).2

theorem mint_postconditions_witness :
    owner_of mintDemoState 0 = some 5 ∧
    get_metadata mintDemoState 0 = some ⟨"u", "t", 3, 0, 5, 1⟩ ∧
    is_revoked mintDemoState 0 = false ∧
    get_history mintDemoState 0 = [⟨"issued", 3, 5, "u"⟩] :=
  mint_postconditions authAll 3 5 "u" "t" 0 initState 0 mintDemoState rfl

/-- Exact effect of one successful `update_consent` on a live record. -/
theorem update_consent_success (auth : Address → Bool) (now : Nat)
    (id : Nat) (uri : String) (s : ConsentState) (o : Address)
    (m : ConsentMetadata) (ho : s.tokenOwner id = some o)
    (hauth : auth o = true) (hr : (s.tokenRevoked id).getD false = false)
    (hm : s.tokenMetadata id = some m) :
    update_consent auth now id uri s =
      some (Except.ok (),
        { s with
            tokenMetadata := upd s.tokenMetadata id
              (some { m with metadata_uri := uri, version := m.version + 1 }),
            consentHistory := upd s.consentHistory id
              (some ((s.consentHistory id).getD [] ++
                [⟨"updated", now, o, uri⟩])) }) := by
  simp [update_consent, ho, hr, hauth, hm]

set_option maxRecDepth 8000 in
/-- Invariant of iterated updates: owner, non-revocation and metadata
presence are preserved, the version grows by 1 per update, the history by
one entry per update. -/
theorem updateN_effects (auth : Address → Bool) (now : Nat) (id : Nat)
    (uri : String) :
    ∀ (k : Nat) (s : ConsentState) (o : Address) (m : ConsentMetadata),
      s.tokenOwner id = some o → auth o = true →
      (s.tokenRevoked id).getD false = false →
      s.tokenMetadata id = some m →
      ∀ (s1 : ConsentState), updateN auth now id uri k s = some s1 →
        s1.tokenOwner id = some o ∧
        (s1.tokenRevoked id).getD false = false ∧
        (s1.tokenMetadata id).map ConsentMetadata.version =
          some (m.version + k) ∧
        (get_history s1 id).length = (get_history s id).length + k := by
  intro k
  induction k with
  | zero =>
    intro s o m ho hauth hr hm s1 h
    simp only [updateN] at h
    cases h
    simp [ho, hr, hm]
  | succ k ih =>
    intro s o m ho hauth hr hm s1 h
    rw [updateN, update_consent_success auth now id uri s o m ho hauth hr hm]
      at h
    have hrec := ih _ o { m with metadata_uri := uri, version := m.version + 1 }
      (by simpa using ho) hauth (by simpa using hr) (by simp [upd]) s1 h
    refine ⟨hrec.1, hrec.2.1, ?_, ?_⟩
    · rw [hrec.2.2.1]
      have hv : m.version + 1 + k = m.version + (k + 1) := by omega
      rw [hv]
    · rw [hrec.2.2.2]
      have hh : (get_history
          { s with
              tokenMetadata := upd s.tokenMetadata id
                (some { m with metadata_uri := uri,
                               version := m.version + 1 }),
              consentHistory := upd s.consentHistory id
                (some ((s.consentHistory id).getD [] ++
                  [⟨"updated", now, o, uri⟩])) } id) =
          (s.consentHistory id).getD [] ++ [⟨"updated", now, o, uri⟩] := by
        simp [get_history, upd]
      rw [hh]
      simp [get_history]
      omega

/-- C3: after a successful mint followed by N successful updates (no
intervening revoke — `updateN` performs only updates), the metadata
version is 1+N and the history length is 1+N; and every successful
`update_consent` replaces the metadata pointer, increments the version by
exactly 1 and appends exactly one "updated" history entry. -/
theorem update_version_and_history (auth auth2 : Address → Bool)
    (now now2 : Nat) (toAddr : Address) (uri uri2 ct : String) (exp : Nat)
    (s s1 s2 : ConsentState) (id : Nat) (N : Nat)
    (hmint : mint_consent auth now toAddr uri ct exp s =
        some (Except.ok id, s1))
    (hauth2 : auth2 toAddr = true)
    (hup : updateN auth2 now2 id uri2 N s1 = some s2) :
    ((get_metadata s2 id).map ConsentMetadata.version = some (1 + N) ∧
      (get_history s2 id).length = 1 + N) ∧
    (∀ (auth3 : Address → Bool) (t : Nat) (u : String) (tid : Nat)
        (s3 s4 : ConsentState),
      update_consent auth3 t tid u s3 = some (Except.ok (), s4) →
      ∃ (o : Address) (m : ConsentMetadata),
        s3.tokenOwner tid = some o ∧ s3.tokenMetadata tid = some m ∧
        get_metadata s4 tid =
          some { m with metadata_uri := u, version := m.version + 1 } ∧
        get_history s4 tid = get_history s3 tid ++ [⟨"updated", t, o, u⟩]) := by
  constructor
  · cases hII : is_issuer s toAddr <;> cases hAu : auth toAddr <;>
      simp [mint_consent, hII, hAu] at hmint
    obtain ⟨h1, h2⟩ := hmint
    rw [← h2] at hup
    have hfx := updateN_effects auth2 now2 id uri2 N _ toAddr
      ⟨uri, ct, now, exp, toAddr, 1⟩ (by simp [← h1, upd]) hauth2
      (by simp [← h1, upd]) (by simp [← h1, upd]) s2 hup
    refine ⟨by simpa [get_metadata] using hfx.2.2.1, ?_⟩
    rw [hfx.2.2.2]
    simp [get_history, ← h1, upd]
  · intro auth3 t u tid s3 s4 h
    rcases ho : s3.tokenOwner tid with _ | o
    · simp [update_consent, ho] at h
    cases hr : (s3.tokenRevoked tid).getD false
    · cases hau : auth3 o
      · simp [update_consent, ho, hr, hau] at h
      · rcases hm : s3.tokenMetadata tid with _ | m
        · simp [update_consent, ho, hr, hau, hm] at h
        · rw [update_consent_success auth3 t tid u s3 o m ho hau hr hm] at h
          simp only [Option.some.injEq, Prod.mk.injEq, true_and] at h
          subst h
          refine ⟨o, m, rfl, rfl, ?_, ?_⟩ <;>
            simp [get_metadata, get_history, upd]
    · simp [update_consent, ho, hr] at h

/-- The demonstration registry after minting token 0 and updating it
twice. -/
def updDemoState : ConsentState :=
  (updateN authAll 4 0 "w" 2 mintDemoState).getD emptyState

theorem update_version_and_history_witness :
    (get_metadata updDemoState 0).map ConsentMetadata.version =
      some (1 + 2) ∧
    (get_history updDemoState 0).length = 1 + 2 :=
  (update_version_and_history authAll authAll 3 4 5 "u" "w" "t" 0 initState
    mintDemoState updDemoState 0 2 rfl rfl rfl).1

/-- C5: on an existing, non-revoked record, an authenticated transfer by a
non-owner fails `NotTokenOwner` with no state change; an authenticated
transfer by the owner (to a distinct identity) succeeds, makes the
destination the owner, removes the id from the source's token list,
appends it to the destination's token list, and leaves the audit trail
unchanged. -/
theorem transfer_ownership_semantics :
    (∀ (auth : Address → Bool) (frm toAddr : Address) (id : Nat)
        (s : ConsentState) (o : Address),
      auth frm = true → s.tokenOwner id = some o →
      (s.tokenRevoked id).getD false = false → o ≠ frm →
      transfer auth frm toAddr id s =
        some (Except.error ContractError.NotTokenOwner, s)) ∧
    (∀ (auth : Address → Bool) (frm toAddr : Address) (id : Nat)
        (s : ConsentState),
      auth frm = true → s.tokenOwner id = some frm →
      (s.tokenRevoked id).getD false = false → frm ≠ toAddr →
      transfer auth frm toAddr id s ≠ none ∧
      ∀ (r : Except ContractError Unit) (s1 : ConsentState),
        transfer auth frm toAddr id s = some (r, s1) →
        r = Except.ok () ∧ owner_of s1 id = some toAddr ∧
        tokens_of_owner s1 frm =
          (tokens_of_owner s frm).filter (fun t => t != id) ∧
        id ∉ tokens_of_owner s1 frm ∧
        tokens_of_owner s1 toAddr = tokens_of_owner s toAddr ++ [id] ∧
        get_history s1 id = get_history s id) := by
  constructor
  · intro auth frm toAddr id s o hau ho hr hne
    simp [transfer, hau, ho, hne]
  · intro auth frm toAddr id s hau ho hr hne
    constructor
    · simp [transfer, hau, ho, hr]
    · intro r s1 h
      simp only [transfer, hau, ho, hr, if_true, if_false, bne_self_eq_false,
        Bool.false_eq_true, Option.some.injEq, Prod.mk.injEq] at h
      obtain ⟨h1, h2⟩ := h
      rw [← h2]
      refine ⟨h1.symm, ?_, ?_, ?_, ?_, ?_⟩ <;>
        simp [owner_of, tokens_of_owner, get_history, upd, hne,
          Ne.symm hne, List.mem_filter]

theorem transfer_ownership_semantics_witness :
    transfer authAll 2 9 0 mintDemoState =
      some (Except.error ContractError.NotTokenOwner, mintDemoState) ∧
    transfer authAll 5 9 0 mintDemoState ≠ none :=
  ⟨transfer_ownership_semantics.1 authAll 2 9 0 mintDemoState 5 rfl rfl rfl
      (by decide),
    (transfer_ownership_semantics.2 authAll 5 9 0 mintDemoState rfl rfl rfl
      (by decide)).1⟩

/-- The demonstration registry after revoking token 0. -/
def revokedDemoState : ConsentState :=
  (revoke_consent authAll 4 0 mintDemoState).getD emptyState

/-- The demonstration registry after minting token 0 with expiry 10. -/
def mintExpDemoState : ConsentState :=
  ((mint_consent authAll 3 5 "u" "t" 10 initState).getD
    (Except.ok 0, emptyState)).2

/-- C7: `is_valid` returns false on a revoked record (even without
metadata); traps when the record is not revoked and the metadata is
absent; returns true for expiry 0 whatever the current time; and for a
nonzero expiry returns true exactly when the current time is strictly
below the expiry. -/
theorem is_valid_semantics (now : Nat) (s : ConsentState) (id : Nat) :
    (is_revoked s id = true → is_valid now s id = some false) ∧
    (is_revoked s id = false → s.tokenMetadata id = none →
      is_valid now s id = none) ∧
    (∀ m : ConsentMetadata, is_revoked s id = false →
      s.tokenMetadata id = some m → m.expiry_timestamp = 0 →
      is_valid now s id = some true) ∧
    (∀ m : ConsentMetadata, is_revoked s id = false →
      s.tokenMetadata id = some m → m.expiry_timestamp ≠ 0 →
      is_valid now s id = some (decide (now < m.expiry_timestamp))) := by
  refine ⟨?_, ?_, ?_, ?_⟩
  · intro hr
    simp only [is_revoked] at hr
    simp [is_valid, hr]
  · intro hr hm
    simp only [is_revoked] at hr
    simp [is_valid, hr, hm]
  · intro m hr hm he
    simp only [is_revoked] at hr
    simp [is_valid, hr, hm, he]
  · intro m hr hm he
    simp only [is_revoked] at hr
    simp [is_valid, hr, hm, he]

theorem is_valid_semantics_witness :
    is_valid 9 revokedDemoState 0 = some false ∧
    is_valid 9 initState 0 = none ∧
    is_valid 999 mintDemoState 0 = some true ∧
    is_valid 3 mintExpDemoState 0 = some (decide (3 < 10)) :=
  ⟨(is_valid_semantics 9 revokedDemoState 0).1 rfl,
   (is_valid_semantics 9 initState 0).2.1 rfl rfl,
   (is_valid_semantics 999 mintDemoState 0).2.2.1 ⟨"u", "t", 3, 0, 5, 1⟩
     rfl rfl rfl,
   (is_valid_semantics 3 mintExpDemoState 0).2.2.2 ⟨"u", "t", 3, 10, 5, 1⟩
     rfl rfl (by decide)⟩

/-- Exact effect of one successful `revoke_consent` (no guard on the
current revoked flag: it applies to already-revoked records as well). -/
theorem revoke_consent_success (auth : Address → Bool) (now : Nat)
    (id : Nat) (s : ConsentState) (o : Address) (m : ConsentMetadata)
    (ho : s.tokenOwner id = some o) (hauth : auth o = true)
    (hm : s.tokenMetadata id = some m) :
    revoke_consent auth now id s =
      some { s with
        tokenRevoked := upd s.tokenRevoked id (some true),
        consentHistory := upd s.consentHistory id
          (some ((s.consentHistory id).getD [] ++
            [⟨"revoked", now, o, m.metadata_uri⟩])) } := by
  simp [revoke_consent, ho, hauth, hm]

set_option maxRecDepth 8000 in
/-- Iterated revocation never fails on a record with owner and metadata
present, appends one "revoked" entry per call, and leaves the record
revoked after at least one call. -/
theorem revokeN_effects (auth : Address → Bool) (now : Nat) (id : Nat) :
    ∀ (k : Nat) (s : ConsentState) (o : Address) (m : ConsentMetadata),
      s.tokenOwner id = some o → auth o = true →
      s.tokenMetadata id = some m →
      revokeN auth now id k s ≠ none ∧
      ∀ s1, revokeN auth now id k s = some s1 →
        s1.tokenOwner id = some o ∧ s1.tokenMetadata id = some m ∧
        get_history s1 id =
          get_history s id ++
            List.replicate k ⟨"revoked", now, o, m.metadata_uri⟩ ∧
        (k = 0 → s1 = s) ∧ (0 < k → is_revoked s1 id = true) := by
  intro k
  induction k with
  | zero =>
    intro s o m ho hauth hm
    refine ⟨by simp [revokeN], ?_⟩
    intro s1 h
    simp only [revokeN] at h
    cases h
    simp [ho, hm]
  | succ k ih =>
    intro s o m ho hauth hm
    have hstep := revoke_consent_success auth now id s o m ho hauth hm
    set s2 : ConsentState :=
      { s with
        tokenRevoked := upd s.tokenRevoked id (some true),
        consentHistory := upd s.consentHistory id
          (some ((s.consentHistory id).getD [] ++
            [⟨"revoked", now, o, m.metadata_uri⟩])) } with hs2
    have hofx : (revokeN auth now id (Nat.succ k) s) =
        revokeN auth now id k s2 := by
      rw [revokeN, hstep]
    have ho2 : s2.tokenOwner id = some o := by rw [hs2]; simpa using ho
    have hm2 : s2.tokenMetadata id = some m := by rw [hs2]; simpa using hm
    have hrec := ih s2 o m ho2 hauth hm2
    refine ⟨by rw [hofx]; exact hrec.1, ?_⟩
    intro s1 h
    rw [hofx] at h
    obtain ⟨h1, h2, h3, h4, h5⟩ := hrec.2 s1 h
    refine ⟨h1, h2, ?_, by simp, ?_⟩
    · rw [h3]
      have hh : get_history s2 id =
          (s.consentHistory id).getD [] ++
            [⟨"revoked", now, o, m.metadata_uri⟩] := by
        rw [hs2]; simp [get_history, upd]
      rw [hh]
      simp [get_history, List.replicate_succ]
    · intro _
      rcases Nat.eq_zero_or_pos k with hk | hk
      · subst hk
        rw [h4 rfl, hs2]
        simp [is_revoked, upd]
      · exact h5 hk

/-- C8: on an existing record (owner and metadata present), every
owner-authenticated `revoke_consent` succeeds — with no guard against the
record being already revoked — sets the revoked flag and appends exactly
one "revoked" entry, so K revocations append K entries. -/
theorem revoke_always_appends (auth : Address → Bool) (now : Nat)
    (id : Nat) (s : ConsentState) (o : Address) (m : ConsentMetadata)
    (ho : s.tokenOwner id = some o) (hauth : auth o = true)
    (hm : s.tokenMetadata id = some m) :
    (revoke_consent auth now id s ≠ none ∧
      ∀ s1, revoke_consent auth now id s = some s1 →
        is_revoked s1 id = true ∧
        get_history s1 id =
          get_history s id ++ [⟨"revoked", now, o, m.metadata_uri⟩]) ∧
    (∀ K : Nat, revokeN auth now id K s ≠ none ∧
      ∀ s1, revokeN auth now id K s = some s1 →
        get_history s1 id =
          get_history s id ++
            List.replicate K ⟨"revoked", now, o, m.metadata_uri⟩ ∧
        (0 < K → is_revoked s1 id = true)) := by
  have hstep := revoke_consent_success auth now id s o m ho hauth hm
  constructor
  · refine ⟨by rw [hstep]; simp, ?_⟩
    intro s1 h
    rw [hstep] at h
    simp only [Option.some.injEq] at h
    rw [← h]
    constructor
    · simp [is_revoked, upd]
    · simp [get_history, upd]
  · intro K
    have hfx := revokeN_effects auth now id K s o m ho hauth hm
    exact ⟨hfx.1, fun s1 h => ⟨(hfx.2 s1 h).2.2.1, (hfx.2 s1 h).2.2.2.2⟩⟩

/-- The demonstration registry after revoking token 0 twice. -/
def revoked2DemoState : ConsentState :=
  (revokeN authAll 4 0 2 mintDemoState).getD emptyState

theorem revoke_always_appends_witness :
    is_revoked revokedDemoState 0 = true ∧
    get_history revoked2DemoState 0 =
      get_history mintDemoState 0 ++
        List.replicate 2 ⟨"revoked", 4, 5, "u"⟩ :=
  ⟨((revoke_always_appends authAll 4 0 mintDemoState 5 ⟨"u", "t", 3, 0, 5, 1⟩
      rfl rfl rfl).1.2 revokedDemoState rfl).1,
   (((revoke_always_appends authAll 4 0 mintDemoState 5 ⟨"u", "t", 3, 0, 5, 1⟩
      rfl rfl rfl).2 2).2 revoked2DemoState rfl).1⟩

/-- C9: whenever an operation of the public surface returns a structured
error, the state it returns is exactly the input state (every `Err` in
the source precedes the first write; trapped calls return no state at
all, the environment having rolled back their writes). -/
theorem failed_calls_leave_state_unchanged (auth : Address → Bool)
    (now : Nat) (op : Op) (s : ConsentState) (e : ContractError)
    (s1 : ConsentState)
    (h : execOp auth now op s = some (CallResult.err e, s1)) : s1 = s := by
  cases op with
  | init admin =>
    by_cases hA : s.admin.isSome
    · simp [execOp, initRegistry, hA] at h
      exact h.2.symm
    · cases hAu : auth admin <;> simp [execOp, initRegistry, hA, hAu] at h
  | addIssuer x =>
    rcases hA : s.admin with _ | a
    · simp [execOp, add_issuer, hA] at h
    · cases hAu : auth a <;> simp [execOp, add_issuer, hA, hAu] at h
  | removeIssuer x =>
    rcases hA : s.admin with _ | a
    · simp [execOp, remove_issuer, hA] at h
    · cases hAu : auth a
      · simp [execOp, remove_issuer, hA, hAu] at h
      · rcases hI : s.issuers with _ | l <;>
          simp [execOp, remove_issuer, hA, hAu, hI] at h
  | mint toAddr uri ct exp =>
    cases hII : is_issuer s toAddr
    · simp [execOp, mint_consent, hII] at h
      exact h.2.symm
    · cases hAu : auth toAddr <;> simp [execOp, mint_consent, hII, hAu] at h
  | update tid uri =>
    rcases hO : s.tokenOwner tid with _ | o
    · simp [execOp, update_consent, hO] at h
    · cases hR : (s.tokenRevoked tid).getD false
      · cases hAu : auth o
        · simp [execOp, update_consent, hO, hR, hAu] at h
        · rcases hM : s.tokenMetadata tid with _ | m <;>
            simp [execOp, update_consent, hO, hR, hAu, hM] at h
      · simp [execOp, update_consent, hO, hR] at h
        exact h.2.symm
  | revoke tid =>
    rcases hO : s.tokenOwner tid with _ | o
    · simp [execOp, revoke_consent, hO] at h
    · cases hAu : auth o
      · simp [execOp, revoke_consent, hO, hAu] at h
      · rcases hM : s.tokenMetadata tid with _ | m <;>
          simp [execOp, revoke_consent, hO, hAu, hM] at h
  | transfer frm toAddr tid =>
    cases hAu : auth frm
    · simp [execOp, transfer, hAu] at h
    · rcases hO : s.tokenOwner tid with _ | o
      · simp [execOp, transfer, hAu, hO] at h
      · by_cases hE : o = frm
        · cases hR : (s.tokenRevoked tid).getD false
          · simp [execOp, transfer, hAu, hO, hE, hR] at h
          · simp [execOp, transfer, hAu, hO, hE, hR] at h
            exact h.2.symm
        · simp [execOp, transfer, hAu, hO, hE] at h
          exact h.2.symm

theorem failed_calls_leave_state_unchanged_witness : initState = initState :=
  failed_calls_leave_state_unchanged authAll 0 (Op.init 3) initState
    ContractError.AlreadyInitialized initState rfl

/-- Filtering out an identity removes every occurrence: the linear scan
no longer finds it. -/
theorem any_filter_ne_self (l : List Address) (x : Address) :
    (l.filter (fun y => y != x)).any (fun y => y == x) = false := by
  induction l with
  | nil => rfl
  | cons z t ih =>
    by_cases hz : z = x <;> simp [List.filter_cons, hz, ih]

/-- Filtering out one identity does not change the scan result for any
other identity. -/
theorem any_filter_ne_other (l : List Address) (x y : Address)
    (h : y ≠ x) :
    (l.filter (fun z => z != x)).any (fun z => z == y) =
      l.any (fun z => z == y) := by
  induction l with
  | nil => rfl
  | cons z t ih =>
    by_cases hz : z = x
    · subst hz
      simp [List.filter_cons, ih, Ne.symm h]
    · simp [List.filter_cons, hz, ih]

/-- Iterated `add_issuer` keeps the admin and keeps the issuer list
present. -/
theorem addIssuerN_preserves (auth : Address → Bool) (x : Address) :
    ∀ (k : Nat) (s : ConsentState) (a : Address) (l : List Address),
      s.admin = some a → auth a = true → s.issuers = some l →
      ∀ s1, addIssuerN auth x k s = some s1 →
        s1.admin = some a ∧ ∃ l1, s1.issuers = some l1 := by
  intro k
  induction k with
  | zero =>
    intro s a l hA hAu hI s1 h
    simp only [addIssuerN] at h
    cases h
    exact ⟨hA, l, hI⟩
  | succ k ih =>
    intro s a l hA hAu hI s1 h
    rw [addIssuerN] at h
    have hadd : add_issuer auth x s =
        some { s with issuers := some (s.issuers.getD [] ++ [x]) } := by
      simp [add_issuer, hA, hAu]
    rw [hadd] at h
    set s2 : ConsentState :=
      { s with issuers := some (s.issuers.getD [] ++ [x]) } with hs2
    exact ih s2 a (s.issuers.getD [] ++ [x]) (by rw [hs2]; simp [hA]) hAu
      (by rw [hs2]) s1 h

/-- C10: `add_issuer` appends unconditionally (so duplicates can
accumulate), yet a single `remove_issuer(x)` rebuilds the list without
every occurrence of `x`: afterwards `is_issuer x` is false — whatever the
number of prior `add_issuer(x)` calls — and the membership of every other
identity is unchanged. -/
theorem remove_issuer_purges_all (auth : Address → Bool) (a x : Address)
    (s : ConsentState) (l : List Address) (hA : s.admin = some a)
    (hAu : auth a = true) (hI : s.issuers = some l) :
    (add_issuer auth x s = some { s with issuers := some (l ++ [x]) }) ∧
    (remove_issuer auth x s =
      some { s with issuers := some (l.filter (fun y => y != x)) }) ∧
    (∀ s1, remove_issuer auth x s = some s1 →
      is_issuer s1 x = false ∧
      ∀ y, y ≠ x → is_issuer s1 y = is_issuer s y) ∧
    (∀ (k : Nat) (s1 : ConsentState), addIssuerN auth x k s = some s1 →
      ∀ s2, remove_issuer auth x s1 = some s2 → is_issuer s2 x = false) := by
  refine ⟨by simp [add_issuer, hA, hAu, hI], by simp [remove_issuer, hA, hAu, hI],
    ?_, ?_⟩
  · intro s1 h
    simp only [remove_issuer, hA, hAu, hI, if_true, Option.some.injEq] at h
    rw [← h]
    constructor
    · simp only [is_issuer]
      simpa using any_filter_ne_self l x
    · intro y hy
      simp only [is_issuer, hI]
      simpa using any_filter_ne_other l x y hy
  · intro k s1 h s2 h2
    obtain ⟨hA1, l1, hI1⟩ := addIssuerN_preserves auth x k s a l hA hAu hI s1 h
    simp only [remove_issuer, hA1, hAu, hI1, if_true, Option.some.injEq] at h2
    rw [← h2]
    simp only [is_issuer]
    simpa using any_filter_ne_self l1 x

/-- The demonstration registry after adding issuer 7 twice and then
removing it once. -/
def removeDemoState : ConsentState :=
  ((addIssuerN authAll 7 2 initState).bind
    (fun s1 => remove_issuer authAll 7 s1)).getD emptyState

theorem remove_issuer_purges_all_witness :
    is_issuer removeDemoState 7 = false :=
  (remove_issuer_purges_all authAll 0 7 initState [5] rfl rfl rfl).2.2.2 2
    ((addIssuerN authAll 7 2 initState).getD emptyState) rfl
    removeDemoState rfl

/-- A revoked record in a well-formed registry position: owner present,
revoked flag set, admin present, and the record id strictly below the
counter (as holds for every record minted from an initialized registry). -/
def RevokedFrozen (s : ConsentState) (id : Nat) (o : Address) : Prop :=
  s.tokenOwner id = some o ∧ is_revoked s id = true ∧
  s.admin.isSome = true ∧ ∃ n, s.tokenCounter = some n ∧ id < n

/-- No operation of the public surface ever unsets the revoked flag,
changes the owner of a revoked record, or lets the counter fall back onto
an existing record id. -/
theorem stepOp_preserves_RevokedFrozen (c : Call) (s : ConsentState)
    (id : Nat) (o : Address) (h : RevokedFrozen s id o) :
    RevokedFrozen (stepOp c s).1 id o := by
  obtain ⟨ho, hr, hadm, n, hc, hlt⟩ := h
  have hS : RevokedFrozen s id o := ⟨ho, hr, hadm, n, hc, hlt⟩
  have hrg : (s.tokenRevoked id).getD false = true := hr
  obtain ⟨auth, now, op⟩ := c
  cases op with
  | init admin =>
    simp only [stepOp, execOp, initRegistry, hadm, if_true]
    exact hS
  | addIssuer x =>
    rcases hA : s.admin with _ | a
    · simp [stepOp, execOp, add_issuer, hA]
      exact hS
    · cases hAu : auth a
      · simp [stepOp, execOp, add_issuer, hA, hAu]
        exact hS
      · simp [stepOp, execOp, add_issuer, hA, hAu]
        exact ⟨ho, hr, by simp, n, hc, hlt⟩
  | removeIssuer x =>
    rcases hA : s.admin with _ | a
    · simp [stepOp, execOp, remove_issuer, hA]
      exact hS
    · cases hAu : auth a
      · simp [stepOp, execOp, remove_issuer, hA, hAu]
        exact hS
      · rcases hI : s.issuers with _ | l
        · simp [stepOp, execOp, remove_issuer, hA, hAu, hI]
          exact hS
        · simp [stepOp, execOp, remove_issuer, hA, hAu, hI]
          exact ⟨ho, hr, by simp, n, hc, hlt⟩
  | mint toAddr uri ct exp =>
    cases hII : is_issuer s toAddr
    · simp [stepOp, execOp, mint_consent, hII]
      exact hS
    · cases hAu : auth toAddr
      · simp [stepOp, execOp, mint_consent, hII, hAu]
        exact hS
      · simp [stepOp, execOp, mint_consent, hII, hAu, hc]
        exact ⟨by simpa [upd, Nat.ne_of_lt hlt] using ho,
          by simpa [is_revoked, upd, Nat.ne_of_lt hlt] using hrg,
          hadm, n + 1, rfl, Nat.lt_succ_of_lt hlt⟩
  | update tid uri =>
    by_cases hT : tid = id
    · subst hT
      simp [stepOp, execOp, update_consent, ho, hrg]
      exact hS
    · rcases hO2 : s.tokenOwner tid with _ | o2
      · simp [stepOp, execOp, update_consent, hO2]
        exact hS
      · cases hR2 : (s.tokenRevoked tid).getD false
        · cases hAu : auth o2
          · simp [stepOp, execOp, update_consent, hO2, hR2, hAu]
            exact hS
          · rcases hM2 : s.tokenMetadata tid with _ | m
            · simp [stepOp, execOp, update_consent, hO2, hR2, hAu, hM2]
              exact hS
            · simp [stepOp, execOp, update_consent, hO2, hR2, hAu, hM2]
              exact hS
        · simp [stepOp, execOp, update_consent, hO2, hR2]
          exact hS
  | revoke tid =>
    by_cases hT : tid = id
    · subst hT
      cases hAu : auth o
      · simp [stepOp, execOp, revoke_consent, ho, hAu]
        exact hS
      · rcases hM : s.tokenMetadata tid with _ | m
        · simp [stepOp, execOp, revoke_consent, ho, hAu, hM]
          exact hS
        · simp [stepOp, execOp, revoke_consent, ho, hAu, hM]
          exact ⟨ho, by simp [is_revoked, upd], hadm, n, hc, hlt⟩
    · rcases hO2 : s.tokenOwner tid with _ | o2
      · simp [stepOp, execOp, revoke_consent, hO2]
        exact hS
      · cases hAu : auth o2
        · simp [stepOp, execOp, revoke_consent, hO2, hAu]
          exact hS
        · rcases hM2 : s.tokenMetadata tid with _ | m
          · simp [stepOp, execOp, revoke_consent, hO2, hAu, hM2]
            exact hS
          · simp [stepOp, execOp, revoke_consent, hO2, hAu, hM2]
            exact ⟨ho, by simpa [is_revoked, upd, Ne.symm hT] using hrg,
              hadm, n, hc, hlt⟩
  | transfer frm toAddr tid =>
    cases hAu : auth frm
    · simp [stepOp, execOp, transfer, hAu]
      exact hS
    · rcases hO2 : s.tokenOwner tid with _ | o2
      · simp [stepOp, execOp, transfer, hAu, hO2]
        exact hS
      · by_cases hE : o2 = frm
        · cases hR2 : (s.tokenRevoked tid).getD false
          · by_cases hT : tid = id
            · subst hT
              rw [hrg] at hR2
              cases hR2
            · simp [stepOp, execOp, transfer, hAu, hO2, hE, hR2]
              exact ⟨by simpa [upd, Ne.symm hT] using ho, hr, hadm,
                n, hc, hlt⟩
          · simp [stepOp, execOp, transfer, hAu, hO2, hE, hR2]
            exact hS
        · simp [stepOp, execOp, transfer, hAu, hO2, hE]
          exact hS

/-- C4 as stated is false: after a successful revocation of token 0
(owned by 5), a transfer attempt by the authenticated non-owner 2 fails
with NotTokenOwner — not with ConsentRevoked — because the owner check
precedes the revocation check in `transfer`. -/
theorem revoked_transfer_wrong_error_cex :
    revoke_consent authAll 4 0 mintDemoState = some revokedDemoState ∧
    transfer authAll 2 9 0 revokedDemoState =
      some (Except.error ContractError.NotTokenOwner, revokedDemoState) ∧
    ContractError.NotTokenOwner ≠ ContractError.ConsentRevoked :=
  ⟨rfl, rfl, by decide⟩

/-- C4 (amended): once a record is revoked (in a well-formed registry
position), `is_valid` is false unconditionally; every `update_consent` on
it fails ConsentRevoked with the state unchanged; every authenticated
`transfer` of it fails with the state unchanged — with ConsentRevoked
when the sender is the current owner and with NotTokenOwner otherwise —
and every further operation leaves the record revoked with the same
owner. -/
theorem revoked_record_rejects_mutation (s : ConsentState) (id : Nat)
    (o : Address) (h : RevokedFrozen s id o) :
    (∀ now : Nat, is_valid now s id = some false) ∧
    (∀ (auth : Address → Bool) (now : Nat) (uri : String),
      update_consent auth now id uri s =
        some (Except.error ContractError.ConsentRevoked, s)) ∧
    (∀ (auth : Address → Bool) (frm toAddr : Address), auth frm = true →
      transfer auth frm toAddr id s =
        some (Except.error
          (if o = frm then ContractError.ConsentRevoked
            else ContractError.NotTokenOwner), s)) ∧
    (∀ c : Call, RevokedFrozen (stepOp c s).1 id o) := by
  obtain ⟨ho, hr, hadm, n, hc, hlt⟩ := h
  have hrg : (s.tokenRevoked id).getD false = true := hr
  refine ⟨?_, ?_, ?_,
    fun c => stepOp_preserves_RevokedFrozen c s id o
      ⟨ho, hr, hadm, n, hc, hlt⟩⟩
  · intro now
    simp [is_valid, hrg]
  · intro auth now uri
    simp [update_consent, ho, hrg]
  · intro auth frm toAddr hAu
    by_cases hE : o = frm <;> simp [transfer, hAu, ho, hE, hrg]

theorem revoked_record_rejects_mutation_witness :
    is_valid 99 revokedDemoState 0 = some false ∧
    update_consent authAll 9 0 "z" revokedDemoState =
      some (Except.error ContractError.ConsentRevoked, revokedDemoState) ∧
    transfer authAll 5 9 0 revokedDemoState =
      some (Except.error ContractError.ConsentRevoked, revokedDemoState) :=
  have hfz : RevokedFrozen revokedDemoState 0 5 :=
    ⟨rfl, rfl, rfl, 1, rfl, by decide⟩
  ⟨(revoked_record_rejects_mutation revokedDemoState 0 5 hfz).1 99,
   (revoked_record_rejects_mutation revokedDemoState 0 5 hfz).2.1 authAll 9 "z",
   by
     have := (revoked_record_rejects_mutation revokedDemoState 0 5 hfz).2.2.1
       authAll 5 9 rfl
     simpa using this⟩

/-- C6 as stated is false in its authentication clause: with no identity
authenticated, minting to the non-issuer 7 still returns the structured
NotAuthorized error — the issuer check precedes `require_auth`, so
authentication of the owner is not required on that path (an
authentication failure would instead trap the call, i.e. produce `none`
here). -/
theorem mint_unauthenticated_still_not_authorized_cex :
    authNone 7 = false ∧
    (mint_consent authNone 0 7 "u" "t" 0 initState).map Prod.fst =
      some (Except.error ContractError.NotAuthorized) ∧
    mint_consent authNone 0 7 "u" "t" 0 initState ≠ none :=
  ⟨rfl, rfl, by simp [mint_consent, is_issuer, initState, emptyState]⟩

/-- C6 (amended): when the owner identity is not in the issuer allowlist,
`mint_consent` fails NotAuthorized with the state unchanged — without
consulting authentication, since the issuer check precedes
`require_auth`; and after `add_issuer` has added an identity, a mint with
that identity as owner never fails NotAuthorized (it traps if the
identity is unauthenticated, and otherwise succeeds). -/
theorem mint_issuer_gating :
    (∀ (auth : Address → Bool) (now : Nat) (toAddr : Address)
        (uri ct : String) (exp : Nat) (s : ConsentState),
      is_issuer s toAddr = false →
      mint_consent auth now toAddr uri ct exp s =
        some (Except.error ContractError.NotAuthorized, s)) ∧
    (∀ (auth auth2 : Address → Bool) (x : Address) (s s1 : ConsentState),
      add_issuer auth x s = some s1 →
      is_issuer s1 x = true ∧
      ∀ (now : Nat) (uri ct : String) (exp : Nat)
        (r : Except ContractError Nat) (s2 : ConsentState),
        mint_consent auth2 now x uri ct exp s1 = some (r, s2) →
        r ≠ Except.error ContractError.NotAuthorized) := by
  constructor
  · intro auth now toAddr uri ct exp s hni
    simp [mint_consent, hni]
  · intro auth auth2 x s s1 h
    rcases hA : s.admin with _ | a
    · simp [add_issuer, hA] at h
    cases hAu : auth a
    · simp [add_issuer, hA, hAu] at h
    have hIss : is_issuer s1 x = true := by
      simp only [add_issuer, hA, hAu, if_true, Option.some.injEq] at h
      rw [← h]
      simp [is_issuer]
    refine ⟨hIss, ?_⟩
    intro now uri ct exp r s2 hmint
    cases hAu2 : auth2 x <;> simp [mint_consent, hIss, hAu2] at hmint
    rw [← hmint.1]
    simp

/-- The demonstration registry after adding issuer 7 once. -/
def addDemoState : ConsentState :=
  (add_issuer authAll 7 initState).getD emptyState

theorem mint_issuer_gating_witness :
    mint_consent authAll 0 7 "u" "t" 0 initState =
      some (Except.error ContractError.NotAuthorized, initState) ∧
    is_issuer addDemoState 7 = true :=
  ⟨mint_issuer_gating.1 authAll 0 7 "u" "t" 0 initState rfl,
   (mint_issuer_gating.2 authAll authAll 7 initState addDemoState rfl).1⟩
